import Mathlib

/-!
Verification of the sales-agency CRM data layer (Go, `graph/resolver.go` and
the `internal/database` package) against its design specification.

The embedding is shallow and pure: the relational store is a Lean structure
holding lists of rows, each SQL statement becomes a pure function on that
state, and environmental failures (constraint violations, lost connections,
failed commits) are injected through explicit failure oracles where a claim
is about failure behaviour.  Machine specifics are abstracted the usual way:

* generated row ids (Postgres `RETURNING id`) are modelled by a `nextId`
  counter in the store, so ids are `Nat`;
* timestamps (`time.Now()`) are an explicit `now : Nat` parameter;
* Go `float64` scores and rates are modelled as `Rat`;
* a Go nil slice and an empty slice are both modelled as `[]` (they are
  observationally equal through this API: the database round-trips both to
  an empty array scan);
* GraphQL optional input fields (Go pointers / nilable slices) are `Option`.
-/

/-- Lead status enumeration, from the GraphQL schema (`enum LeadStatus`). -/
inductive LeadStatus where
  | new
  | contacted
  | engaged
  | qualified
  | proposal
  | negotiation
  | won
  | lost
  | dormant
deriving DecidableEq

/-- Domain entity `model.Lead` as used by the resolver and database layers. -/
structure Lead where
  id : Nat
  name : String
  email : String
  phone : Option String
  company : Option String
  position : Option String
  status : LeadStatus
  intentScore : Rat
  tags : List String
  source : Option String
  lastContact : Option Nat
  nextFollowUp : Option Nat
  notes : Option String
  createdAt : Nat
  updatedAt : Option Nat
deriving DecidableEq

/-- GraphQL `input LeadInput`: `name` and `email` are required, every other
field is optional (a nil pointer / nil slice in Go means "not specified"). -/
structure LeadInput where
  name : String
  email : String
  phone : Option String
  company : Option String
  position : Option String
  status : Option LeadStatus
  intentScore : Option Rat
  tags : Option (List String)
  source : Option String
  notes : Option String
deriving DecidableEq

/-- The `leads` table: stored rows plus the id-generation counter. -/
structure LeadsDB where
  rows : List Lead
  nextId : Nat
deriving DecidableEq

/-- Well-formedness of the store: every generated id is below the counter,
so the next generated id is fresh.  This is the `Nat`-counter rendering of a
Postgres primary key's uniqueness. -/
def LeadsDB.WF (db : LeadsDB) : Prop :=
  ∀ r ∈ db.rows, r.id < db.nextId

instance (db : LeadsDB) : Decidable db.WF := by
  unfold LeadsDB.WF; infer_instance

namespace DB

/-- `DB.GetLeadByID`: `SELECT ... FROM leads WHERE id = $1`.  `sql.ErrNoRows`
is translated to `(nil, nil)` in the Go code, i.e. absence is `none`, not an
error. -/
def GetLeadByID (db : LeadsDB) (id : Nat) : Option Lead :=
  db.rows.find? (fun r => r.id == id)

/-- `DB.CreateLead`: a single `INSERT ... RETURNING id`.  The insert lists the
columns name, email, phone, company, position, status, intent_score, tags,
source, notes, created_at — `last_contact`, `next_follow_up` and `updated_at`
are not inserted and therefore stored NULL.  The function returns the
in-memory lead with its `ID` populated. -/
def CreateLead (db : LeadsDB) (lead : Lead) : Lead × LeadsDB :=
  let newLead := { lead with id := db.nextId }
  let storedRow := { newLead with lastContact := none, nextFollowUp := none, updatedAt := none }
  (newLead, { rows := db.rows ++ [storedRow], nextId := db.nextId + 1 })

/-- `DB.UpdateLead`: `UPDATE leads SET name = $1, ..., updated_at = $11 WHERE
id = $12` — a full rewrite of the listed columns (`created_at`,
`last_contact`, `next_follow_up` are not in the SET list).  The given
in-memory lead is returned unconditionally. -/
def UpdateLead (db : LeadsDB) (lead : Lead) : Lead × LeadsDB :=
  (lead,
   { db with
     rows := db.rows.map (fun r =>
       if r.id == lead.id then
         { r with
           name := lead.name, email := lead.email, phone := lead.phone,
           company := lead.company, position := lead.position,
           status := lead.status, intentScore := lead.intentScore,
           tags := lead.tags, source := lead.source, notes := lead.notes,
           updatedAt := lead.updatedAt }
       else r) })

/-- `DB.DeleteLead`: `DELETE FROM leads WHERE id = $1`, returning
`rowsAffected > 0`. -/
def DeleteLead (db : LeadsDB) (id : Nat) : LeadsDB × Bool :=
  let rowsAffected := (db.rows.filter (fun r => r.id == id)).length
  ({ db with rows := db.rows.filter (fun r => r.id != id) }, decide (0 < rowsAffected))

end DB

/-- GraphQL `input LeadFilterInput` as consumed by `DB.GetLeadsByFilter`. -/
structure LeadFilterInput where
  status : Option (List LeadStatus)
  minIntentScore : Option Rat
  tags : Option (List String)
  source : Option String
  lastContactAfter : Option Nat
  lastContactBefore : Option Nat
deriving DecidableEq

/-- The WHERE clause `DB.GetLeadsByFilter` builds: each present (and, for the
list-valued fields, non-empty) filter field contributes one conjunct.  SQL
NULL comparison semantics make a NULL `source` or `last_contact` column fail
the corresponding conjunct. -/
def leadMatches (f : LeadFilterInput) (l : Lead) : Bool :=
  (match f.status with
   | none => true
   | some ss => if ss.isEmpty then true else ss.contains l.status) &&
  (match f.minIntentScore with
   | none => true
   | some t => decide (t ≤ l.intentScore)) &&
  (match f.tags with
   | none => true
   | some ts => if ts.isEmpty then true else l.tags.any (fun tag => ts.contains tag)) &&
  (match f.source with
   | none => true
   | some s => l.source == some s) &&
  (match f.lastContactAfter with
   | none => true
   | some a => match l.lastContact with
     | none => false
     | some lc => decide (a ≤ lc)) &&
  (match f.lastContactBefore with
   | none => true
   | some b => match l.lastContact with
     | none => false
     | some lc => decide (lc ≤ b))

/-- Insert a lead into a list already sorted by `created_at` descending,
keeping the descending order (the stable sort the `ORDER BY created_at DESC`
clause is modelled by). -/
def insertByCreatedDesc (l : Lead) : List Lead → List Lead
  | [] => [l]
  | x :: xs => if x.createdAt < l.createdAt then l :: x :: xs else x :: insertByCreatedDesc l xs

/-- Stable sort by `created_at` descending (`ORDER BY created_at DESC`). -/
def sortByCreatedDesc : List Lead → List Lead
  | [] => []
  | x :: xs => insertByCreatedDesc x (sortByCreatedDesc xs)

namespace DB

/-- `DB.GetLeadsByFilter`: builds the conjunctive WHERE clause from the
present filter fields, orders by `created_at DESC`, then applies `OFFSET`
and `LIMIT` (SQL applies the offset before the limit regardless of the
clause order in the query text). -/
def GetLeadsByFilter (db : LeadsDB) (filter : Option LeadFilterInput)
    (limit offset : Option Nat) : List Lead :=
  let matched := match filter with
    | none => db.rows
    | some f => db.rows.filter (leadMatches f)
  let sorted := sortByCreatedDesc matched
  let afterOffset := match offset with
    | none => sorted
    | some o => sorted.drop o
  match limit with
  | none => afterOffset
  | some n => afterOffset.take n

end DB

namespace Resolver

/-- Mutation resolver `CreateLead`: copies the required and optional input
fields into a fresh `model.Lead`, defaulting an unspecified status to
`LeadStatusNew` and an unspecified intent score to `0.5`, sets `CreatedAt`
to the current time, and calls `DB.CreateLead`. -/
def CreateLead (db : LeadsDB) (input : LeadInput) (now : Nat) : Lead × LeadsDB :=
  let lead : Lead :=
    { id := 0
      name := input.name
      email := input.email
      phone := input.phone
      company := input.company
      position := input.position
      status := input.status.getD LeadStatus.new
      intentScore := input.intentScore.getD (1/2 : Rat)
      tags := input.tags.getD []
      source := input.source
      lastContact := none
      nextFollowUp := none
      notes := input.notes
      createdAt := now
      updatedAt := none }
  DB.CreateLead db lead

/-- The field-merge block of the `UpdateLead` resolver: `name` and `email`
are overwritten unconditionally (required input fields); each optional field
overwrites the stored value only when present in the input; `UpdatedAt` is
set to the current time. -/
def mergeLead (lead : Lead) (input : LeadInput) (now : Nat) : Lead :=
  { lead with
    name := input.name
    email := input.email
    phone := if input.phone.isSome then input.phone else lead.phone
    company := if input.company.isSome then input.company else lead.company
    position := if input.position.isSome then input.position else lead.position
    status := input.status.getD lead.status
    intentScore := input.intentScore.getD lead.intentScore
    tags := input.tags.getD lead.tags
    source := if input.source.isSome then input.source else lead.source
    notes := if input.notes.isSome then input.notes else lead.notes
    updatedAt := some now }

/-- Outcome of the `UpdateLead` resolver.  `dbError` is the `err != nil`
return path (storage failure surfaced to the caller); `nilPanic` records the
behaviour when `DB.GetLeadByID` returns `(nil, nil)` for a missing row: the
resolver's error check passes and `lead.Name = input.Name` dereferences a
nil `*model.Lead`, i.e. the Go code panics instead of returning. -/
inductive UpdateOutcome where
  | ok (lead : Lead) (db : LeadsDB)
  | dbError (msg : String)
  | nilPanic
deriving DecidableEq

/-- Mutation resolver `UpdateLead`: loads the current lead by id, merges the
present input fields over it, stamps `UpdatedAt`, and persists via
`DB.UpdateLead`.  In this pure embedding the storage layer itself never
fails, so the `dbError` branch is never taken; a missing row reaches the nil
dereference. -/
def UpdateLead (db : LeadsDB) (id : Nat) (input : LeadInput) (now : Nat) : UpdateOutcome :=
  match DB.GetLeadByID db id with
  | none => UpdateOutcome.nilPanic
  | some lead =>
    let merged := mergeLead lead input now
    let (l, db2) := DB.UpdateLead db merged
    UpdateOutcome.ok l db2

end Resolver

/-- Client status enumeration, from the GraphQL schema (`enum ClientStatus`). -/
inductive ClientStatus where
  | active
  | inactive
  | pending
  | churned
deriving DecidableEq

/-- Domain entity `model.Client` as used by the resolver and database layers. -/
structure Client where
  id : Nat
  name : String
  industry : String
  website : Option String
  contactPerson : String
  email : String
  phone : Option String
  address : Option String
  startDate : Nat
  status : ClientStatus
  notes : Option String
  createdAt : Nat
  updatedAt : Option Nat
deriving DecidableEq

/-- GraphQL `input ClientInput`. -/
structure ClientInput where
  name : String
  industry : String
  website : Option String
  contactPerson : String
  email : String
  phone : Option String
  address : Option String
  startDate : Nat
  status : Option ClientStatus
  notes : Option String
  serviceIds : Option (List String)
deriving DecidableEq

/-- The `clients` table together with the `client_service` association
table (client id, service id pairs) and the id-generation counter. -/
structure ClientDB where
  clients : List Client
  nextId : Nat
  clientService : List (Nat × String)
deriving DecidableEq

namespace DB

/-- `DB.CreateClient`: single `INSERT ... RETURNING id` into `clients`. -/
def CreateClient (db : ClientDB) (client : Client) : Client × ClientDB :=
  let newClient := { client with id := db.nextId }
  (newClient,
   { db with clients := db.clients ++ [newClient], nextId := db.nextId + 1 })

/-- The insert loop inside `DB.AssignServicesToClient`: one
`INSERT INTO client_service` per service id, executed inside the
transaction.  The `fails` oracle injects environmental failures (constraint
violation, lost connection): the Go loop returns at the first failing
insert.  On success it yields the buffered association rows. -/
def runServiceInserts (clientID : Nat) (serviceIDs : List String)
    (fails : String → Bool) : Except String (List (Nat × String)) :=
  match serviceIDs with
  | [] => Except.ok []
  | s :: rest =>
    if fails s then Except.error "error assigning service to client"
    else
      match runServiceInserts clientID rest fails with
      | Except.error e => Except.error e
      | Except.ok pending => Except.ok ((clientID, s) :: pending)

/-- `DB.AssignServicesToClient`: begins a transaction with a deferred
rollback, runs the insert loop, then commits.  An early return (any insert
failing, modelled through `fails`) or a failed commit (`commitFails`) leaves
the store unchanged — the deferred `tx.Rollback` discards the buffered
inserts; only a successful commit publishes them.  Returns the possibly
updated store and the error, if any, surfaced to the caller. -/
def AssignServicesToClient (db : ClientDB) (clientID : Nat)
    (serviceIDs : List String) (fails : String → Bool) (commitFails : Bool) :
    ClientDB × Option String :=
  match runServiceInserts clientID serviceIDs fails with
  | Except.error e => (db, some e)
  | Except.ok pending =>
    if commitFails then (db, some "error committing transaction")
    else ({ db with clientService := db.clientService ++ pending }, none)

end DB

namespace Resolver

/-- The `model.Client` value the `CreateClient` resolver builds from its
input: required fields copied, unspecified status defaulted to
`ClientStatusActive`, `CreatedAt` set to the current time. -/
def mkClient (input : ClientInput) (now : Nat) : Client :=
  { id := 0
    name := input.name
    industry := input.industry
    website := input.website
    contactPerson := input.contactPerson
    email := input.email
    phone := input.phone
    address := input.address
    startDate := input.startDate
    status := input.status.getD ClientStatus.active
    notes := input.notes
    createdAt := now
    updatedAt := none }

/-- Mutation resolver `CreateClient`: inserts the client (its own single
statement, committed immediately), then — only when `serviceIds` was
specified — calls `DB.AssignServicesToClient` in a separate transaction.  If
that second step fails, the error is returned to the caller while the client
insert from the first step stays persisted. -/
def CreateClient (db : ClientDB) (input : ClientInput) (now : Nat)
    (fails : String → Bool) (commitFails : Bool) : ClientDB × Except String Client :=
  let (newClient, db1) := DB.CreateClient db (mkClient input now)
  match input.serviceIds with
  | none => (db1, Except.ok newClient)
  | some ids =>
    match DB.AssignServicesToClient db1 newClient.id ids fails commitFails with
    | (db2, some e) => (db2, Except.error e)
    | (db2, none) => (db2, Except.ok newClient)

end Resolver

/-- Stored row of the `agent_stats` table. -/
structure AgentStatsRow where
  id : Nat
  agentID : String
  leadsEngaged : Int
  messagesDelivered : Int
  responseRate : Rat
  conversionRate : Rat
  avgResponseTime : Rat
  period : String
  createdAt : Nat
deriving DecidableEq

/-- The `model.AgentStats` value `DB.GetAgentStats` returns.  `agentRef` is
the `Agent` pointer's id (`stats.Agent = &model.AIAgent{ID: aiAgentID}`).
On the row-found path the Go code scans the `agent_id` column into a local
variable, so the returned struct's `AgentID` field keeps its zero value. -/
structure AgentStats where
  id : Nat
  agentID : String
  leadsEngaged : Int
  messagesDelivered : Int
  responseRate : Rat
  conversionRate : Rat
  avgResponseTime : Rat
  period : String
  createdAt : Nat
  agentRef : String
deriving DecidableEq

/-- The `agent_stats` table plus its id-generation counter. -/
structure StatsDB where
  rows : List AgentStatsRow
  nextId : Nat
deriving DecidableEq

/-- The row `ORDER BY created_at DESC LIMIT 1` selects among the rows of one
agent: a row with the strictly greatest `created_at` (the earliest such row
on ties, matching a stable descending sort). -/
def latestStatsFor (rows : List AgentStatsRow) (agentID : String) : Option AgentStatsRow :=
  (rows.filter (fun r => r.agentID == agentID)).foldl
    (fun acc r =>
      match acc with
      | none => some r
      | some b => if b.createdAt < r.createdAt then some r else acc)
    none

namespace DB

/-- `DB.GetAgentStats`: selects the latest stats row for the agent; when no
row exists, builds a zero-valued row with `period = "all"` and the current
time, inserts it immediately (`INSERT ... RETURNING id`), and returns it.
When a row exists it is returned and the store is untouched. -/
def GetAgentStats (db : StatsDB) (aiAgentID : String) (now : Nat) : AgentStats × StatsDB :=
  match latestStatsFor db.rows aiAgentID with
  | some row =>
    ({ id := row.id, agentID := "", leadsEngaged := row.leadsEngaged,
       messagesDelivered := row.messagesDelivered, responseRate := row.responseRate,
       conversionRate := row.conversionRate, avgResponseTime := row.avgResponseTime,
       period := row.period, createdAt := row.createdAt, agentRef := aiAgentID }, db)
  | none =>
    let row : AgentStatsRow :=
      { id := db.nextId, agentID := aiAgentID, leadsEngaged := 0,
        messagesDelivered := 0, responseRate := 0, conversionRate := 0,
        avgResponseTime := 0, period := "all", createdAt := now }
    ({ id := db.nextId, agentID := aiAgentID, leadsEngaged := 0,
       messagesDelivered := 0, responseRate := 0, conversionRate := 0,
       avgResponseTime := 0, period := "all", createdAt := now, agentRef := aiAgentID },
     { rows := db.rows ++ [row], nextId := db.nextId + 1 })

end DB

/-- A `LeadFilterInput` with only `minIntentScore` present. -/
def minScoreFilter (t : Rat) : LeadFilterInput :=
  { status := none, minIntentScore := some t, tags := none, source := none,
    lastContactAfter := none, lastContactBefore := none }

/-- Concrete stored lead used by witnesses. -/
def wlead : Lead :=
  { id := 1, name := "Ada", email := "ada@acme.com", phone := some "555-1234",
    company := none, position := none, status := LeadStatus.qualified,
    intentScore := (4/5 : Rat), tags := ["vip"], source := some "web",
    lastContact := none, nextFollowUp := none, notes := none,
    createdAt := 10, updatedAt := none }

/-- Concrete one-row lead store used by witnesses. -/
def wdb : LeadsDB := { rows := [wlead], nextId := 2 }

/-- Concrete update input that only specifies `notes`. -/
def wnotesInput : LeadInput :=
  { name := "Ada", email := "ada@acme.com", phone := none, company := none,
    position := none, status := none, intentScore := none, tags := none,
    source := none, notes := some "called twice" }

/-- Concrete creation input used by the round-trip witness. -/
def wcreateInput : LeadInput :=
  { name := "Jane Doe", email := "jane@acme.com", phone := some "123",
    company := none, position := none, status := none, intentScore := none,
    tags := some ["t1", "t2"], source := none, notes := none }

/-- Concrete lead with creation time `10 * n`, used by the pagination witness. -/
def pagedLead (n : Nat) : Lead :=
  { id := n, name := "lead", email := "x@y.z", phone := none, company := none,
    position := none, status := LeadStatus.new, intentScore := (1 : Rat),
    tags := [], source := none, lastContact := none, nextFollowUp := none,
    notes := none, createdAt := 10 * n, updatedAt := none }

/-- Concrete five-row lead store, already in creation-descending order. -/
def pagedDB : LeadsDB :=
  { rows := [pagedLead 5, pagedLead 4, pagedLead 3, pagedLead 2, pagedLead 1], nextId := 6 }

/-- Concrete client-creation input whose service list will partially fail. -/
def wclientInput : ClientInput :=
  { name := "Acme", industry := "retail", website := none, contactPerson := "Bob",
    email := "bob@acme.com", phone := none, address := none, startDate := 100,
    status := none, notes := none, serviceIds := some ["s1", "s2"] }

/-! ### Helper lemmas -/

/-- A successful pass of the service-insert loop buffers exactly one
association row per service id, in order. -/
theorem runServiceInserts_ok_eq (clientID : Nat) (ids : List String)
    (fails : String → Bool) (pending : List (Nat × String))
    (h : DB.runServiceInserts clientID ids fails = Except.ok pending) :
    pending = ids.map (fun s => (clientID, s)) := by
  induction ids generalizing pending with
  | nil =>
    simp [DB.runServiceInserts] at h
    simp [h.symm]
  | cons s rest ih =>
    by_cases hs : fails s = true
    · simp [DB.runServiceInserts, hs] at h
    · simp only [DB.runServiceInserts, hs, if_neg, Bool.false_eq_true, not_false_iff, if_false] at h
      cases hrec : DB.runServiceInserts clientID rest fails with
      | error e => rw [hrec] at h; cases h
      | ok p =>
        rw [hrec] at h
        cases h
        simp [ih p hrec]

/-- The insert loop succeeds only when no insert fails. -/
theorem runServiceInserts_ok_no_fail (clientID : Nat) (ids : List String)
    (fails : String → Bool) (pending : List (Nat × String))
    (h : DB.runServiceInserts clientID ids fails = Except.ok pending) :
    ids.any fails = false := by
  induction ids generalizing pending with
  | nil => rfl
  | cons s rest ih =>
    by_cases hs : fails s = true
    · simp [DB.runServiceInserts, hs] at h
    · cases hrec : DB.runServiceInserts clientID rest fails with
      | error e =>
        simp [DB.runServiceInserts, hs, hrec] at h
      | ok p =>
        simp [List.any_cons, hs, ih p hrec]

/-- When some insert fails or the commit fails, the whole assignment call
returns an error and leaves the store untouched. -/
theorem assignServices_error_of_failure (db : ClientDB) (clientID : Nat)
    (ids : List String) (fails : String → Bool) (commitFails : Bool)
    (h : (ids.any fails || commitFails) = true) :
    ∃ e, DB.AssignServicesToClient db clientID ids fails commitFails = (db, some e) := by
  unfold DB.AssignServicesToClient
  cases hrec : DB.runServiceInserts clientID ids fails with
  | error e => exact ⟨e, rfl⟩
  | ok pending =>
    have hany := runServiceInserts_ok_no_fail clientID ids fails pending hrec
    rw [hany, Bool.false_or] at h
    rw [h]
    exact ⟨"error committing transaction", rfl⟩

/-! ### Claim theorems -/

/-- C1: the spec says `UpdateLead` on a missing id surfaces a not-found
error to the caller before any merge or write.  The code does not:
`DB.GetLeadByID` maps `sql.ErrNoRows` to `(nil, nil)`, so the resolver's
`err != nil` check passes and the merge block dereferences a nil
`*model.Lead` — a runtime panic, not a returned error.  Evaluated here at a
store with no lead rows and id 1. -/
theorem updateLead_missing_id_nil_panic :
    Resolver.UpdateLead ⟨[], 0⟩ 1
      { name := "Jane Doe", email := "jane@acme.com", phone := none,
        company := none, position := none, status := none, intentScore := none,
        tags := none, source := none, notes := none } 0
      = Resolver.UpdateOutcome.nilPanic := rfl

/-- C7: `CreateLead` stores `status = NEW` and `intentScore = 0.5` when those
inputs are unspecified, and the specified values unchanged otherwise
(`Option.getD` is exactly that case split). -/
theorem createLead_defaults (db : LeadsDB) (input : LeadInput) (now : Nat) :
    (Resolver.CreateLead db input now).1.status = input.status.getD LeadStatus.new ∧
    (Resolver.CreateLead db input now).1.intentScore = input.intentScore.getD (1/2 : Rat) :=
  ⟨rfl, rfl⟩

/-- C10: `DeleteLead` returns true iff a row with the given id was removed;
deleting again after a successful delete returns false (no error path exists
for a missing row — the result is just `rowsAffected > 0`). -/
theorem deleteLead_idempotent (db : LeadsDB) (id : Nat) :
    ((DB.DeleteLead db id).2 = true ↔ ∃ r ∈ db.rows, r.id = id) ∧
    (DB.DeleteLead (DB.DeleteLead db id).1 id).2 = false := by
  constructor
  · simp only [DB.DeleteLead, decide_eq_true_eq]
    rw [List.length_pos, Ne, List.filter_eq_nil_iff]
    push_neg
    simp
  · have hnil : ((DB.DeleteLead db id).1.rows.filter (fun r => r.id == id)) = [] := by
      apply List.filter_eq_nil_iff.mpr
      intro r hr
      simp only [DB.DeleteLead, List.mem_filter] at hr
      simpa using hr.2
    simp [DB.DeleteLead, hnil]

/-- C3: `AssignServicesToClient` is all-or-nothing: either it returns no
error and the association table gains exactly one row per requested service
id (everything else unchanged), or it returns an error and the store is
exactly as before the call — regardless of which insert fails or whether the
commit fails. -/
theorem assignServicesToClient_atomic (db : ClientDB) (clientID : Nat)
    (serviceIDs : List String) (fails : String → Bool) (commitFails : Bool) :
    ((DB.AssignServicesToClient db clientID serviceIDs fails commitFails).2 = none ∧
     (DB.AssignServicesToClient db clientID serviceIDs fails commitFails).1.clientService
       = db.clientService ++ serviceIDs.map (fun s => (clientID, s)) ∧
     (DB.AssignServicesToClient db clientID serviceIDs fails commitFails).1.clients = db.clients) ∨
    (∃ e, (DB.AssignServicesToClient db clientID serviceIDs fails commitFails).2 = some e ∧
          (DB.AssignServicesToClient db clientID serviceIDs fails commitFails).1 = db) := by
  unfold DB.AssignServicesToClient
  cases hrec : DB.runServiceInserts clientID serviceIDs fails with
  | error e => exact Or.inr ⟨e, rfl, rfl⟩
  | ok pending =>
    cases commitFails with
    | true => exact Or.inr ⟨"error committing transaction", rfl, rfl⟩
    | false =>
      left
      refine ⟨rfl, ?_, rfl⟩
      simp [runServiceInserts_ok_eq clientID serviceIDs fails pending hrec]

/-- C5: `CreateClient` with a non-empty service list is not atomic across
its two steps: when the later association transaction fails (any insert or
the commit), the caller receives an error while the client row inserted in
the first step stays persisted; no association row is persisted. -/
theorem createClient_error_keeps_client (db : ClientDB) (input : ClientInput)
    (now : Nat) (fails : String → Bool) (commitFails : Bool) (ids : List String)
    (hids : input.serviceIds = some ids)
    (hfail : (ids.any fails || commitFails) = true) :
    ∃ e, (Resolver.CreateClient db input now fails commitFails).2 = Except.error e ∧
      (Resolver.CreateClient db input now fails commitFails).1.clients
        = db.clients ++ [{ (Resolver.mkClient input now) with id := db.nextId }] ∧
      (Resolver.CreateClient db input now fails commitFails).1.clientService
        = db.clientService := by
  obtain ⟨e, he⟩ := assignServices_error_of_failure
    (DB.CreateClient db (Resolver.mkClient input now)).2
    (DB.CreateClient db (Resolver.mkClient input now)).1.id ids fails commitFails hfail
  refine ⟨e, ?_⟩
  simp only [DB.CreateClient] at he
  simp only [Resolver.CreateClient, DB.CreateClient, hids]
  rw [he]
  simp

/-- `find?` by id commutes with mapping an id-preserving function over the
rows. -/
theorem find?_map_id_preserved (g : Lead → Lead) (hg : ∀ r, (g r).id = r.id)
    (rows : List Lead) (id : Nat) :
    (rows.map g).find? (fun r => r.id == id) =
      (rows.find? (fun r => r.id == id)).map g := by
  induction rows with
  | nil => rfl
  | cons x xs ih =>
    simp only [List.map_cons, List.find?]
    rw [hg x]
    cases hx : x.id == id with
    | true => simp
    | false => simp [ih]

/-- Membership is preserved by the descending insertion step. -/
theorem mem_insertByCreatedDesc (a l : Lead) (xs : List Lead) :
    a ∈ insertByCreatedDesc l xs ↔ a = l ∨ a ∈ xs := by
  induction xs with
  | nil => simp [insertByCreatedDesc]
  | cons x xs ih =>
    by_cases hx : x.createdAt < l.createdAt
    · simp [insertByCreatedDesc, hx]
    · simp only [insertByCreatedDesc, if_neg hx, List.mem_cons, ih]
      tauto

/-- The descending sort is a permutation at the level of membership. -/
theorem mem_sortByCreatedDesc (a : Lead) (xs : List Lead) :
    a ∈ sortByCreatedDesc xs ↔ a ∈ xs := by
  induction xs with
  | nil => simp [sortByCreatedDesc]
  | cons x xs ih => simp [sortByCreatedDesc, mem_insertByCreatedDesc, ih]

/-- When no stored stats row belongs to the agent, the latest-row lookup is
empty. -/
theorem latestStatsFor_eq_none (rows : List AgentStatsRow) (agentID : String)
    (h : ∀ r ∈ rows, r.agentID ≠ agentID) :
    latestStatsFor rows agentID = none := by
  unfold latestStatsFor
  have hfil : rows.filter (fun r => r.agentID == agentID) = [] := by
    rw [List.filter_eq_nil_iff]
    intro r hr
    simpa using h r hr
  rw [hfil]
  rfl

/-- After appending the agent's only row, the latest-row lookup finds it. -/
theorem latestStatsFor_append_single (rows : List AgentStatsRow) (agentID : String)
    (row : AgentStatsRow) (h : ∀ r ∈ rows, r.agentID ≠ agentID)
    (hrow : row.agentID = agentID) :
    latestStatsFor (rows ++ [row]) agentID = some row := by
  unfold latestStatsFor
  rw [List.filter_append]
  have hfil : rows.filter (fun r => r.agentID == agentID) = [] := by
    rw [List.filter_eq_nil_iff]
    intro r hr
    simpa using h r hr
  rw [hfil]
  simp [hrow]

/-- Reading back after `DB.UpdateLead` returns the written lead, provided the
written lead keeps the stored row's id, creation time, last-contact and
next-follow-up values (which the UPDATE statement does not touch). -/
theorem getLeadByID_after_update (db : LeadsDB) (id : Nat) (m lead : Lead)
    (h : DB.GetLeadByID db id = some lead) (hmid : m.id = id)
    (hcreated : m.createdAt = lead.createdAt) (hlc : m.lastContact = lead.lastContact)
    (hnf : m.nextFollowUp = lead.nextFollowUp) :
    DB.GetLeadByID (DB.UpdateLead db m).2 id = some m := by
  have hid : lead.id = id := by
    have := List.find?_some h
    simpa using this
  have key := find?_map_id_preserved
    (fun r : Lead =>
      if r.id == m.id then
        { r with
          name := m.name, email := m.email, phone := m.phone,
          company := m.company, position := m.position,
          status := m.status, intentScore := m.intentScore,
          tags := m.tags, source := m.source, notes := m.notes,
          updatedAt := m.updatedAt }
      else r)
    (by
      intro r
      by_cases hr : (r.id == m.id) = true
      · simp [hr]
      · simp [hr])
    db.rows id
  simp only [DB.GetLeadByID, DB.UpdateLead]
  rw [key]
  have h' : db.rows.find? (fun r => r.id == id) = some lead := h
  rw [h']
  simp only [Option.map_some']
  have hbeq : (lead.id == m.id) = true := by simp [hid, hmid]
  rw [if_pos hbeq]
  cases m
  cases lead
  simp_all

/-- C2: for an existing lead, `UpdateLead` merges only the input fields that
are present over the stored lead, persists the merged result, and leaves
every absent optional field (phone, company, position, status, intentScore,
tags, source, notes) at its previously stored value, while present fields
overwrite the stored values. -/
theorem updateLead_preserves_absent_fields (db : LeadsDB) (id : Nat)
    (input : LeadInput) (now : Nat) (lead : Lead)
    (h : DB.GetLeadByID db id = some lead) :
    Resolver.UpdateLead db id input now
      = Resolver.UpdateOutcome.ok (Resolver.mergeLead lead input now)
          (DB.UpdateLead db (Resolver.mergeLead lead input now)).2 ∧
    DB.GetLeadByID (DB.UpdateLead db (Resolver.mergeLead lead input now)).2 id
      = some (Resolver.mergeLead lead input now) ∧
    (input.phone = none → (Resolver.mergeLead lead input now).phone = lead.phone) ∧
    (input.company = none → (Resolver.mergeLead lead input now).company = lead.company) ∧
    (input.position = none → (Resolver.mergeLead lead input now).position = lead.position) ∧
    (input.status = none → (Resolver.mergeLead lead input now).status = lead.status) ∧
    (input.intentScore = none → (Resolver.mergeLead lead input now).intentScore = lead.intentScore) ∧
    (input.tags = none → (Resolver.mergeLead lead input now).tags = lead.tags) ∧
    (input.source = none → (Resolver.mergeLead lead input now).source = lead.source) ∧
    (input.notes = none → (Resolver.mergeLead lead input now).notes = lead.notes) ∧
    (∀ v, input.phone = some v → (Resolver.mergeLead lead input now).phone = some v) ∧
    (∀ v, input.company = some v → (Resolver.mergeLead lead input now).company = some v) ∧
    (∀ v, input.position = some v → (Resolver.mergeLead lead input now).position = some v) ∧
    (∀ v, input.status = some v → (Resolver.mergeLead lead input now).status = v) ∧
    (∀ v, input.intentScore = some v → (Resolver.mergeLead lead input now).intentScore = v) ∧
    (∀ v, input.tags = some v → (Resolver.mergeLead lead input now).tags = v) ∧
    (∀ v, input.source = some v → (Resolver.mergeLead lead input now).source = some v) ∧
    (∀ v, input.notes = some v → (Resolver.mergeLead lead input now).notes = some v) := by
  have hid : lead.id = id := by
    have := List.find?_some h
    simpa using this
  refine ⟨?_, ?_, ?_, ?_, ?_, ?_, ?_, ?_, ?_, ?_, ?_, ?_, ?_, ?_, ?_, ?_, ?_, ?_⟩
  · simp only [Resolver.UpdateLead, h, DB.UpdateLead]
  · exact getLeadByID_after_update db id (Resolver.mergeLead lead input now) lead h
      (by simpa [Resolver.mergeLead] using hid) (by simp [Resolver.mergeLead])
      (by simp [Resolver.mergeLead]) (by simp [Resolver.mergeLead])
  all_goals intros
  all_goals simp [Resolver.mergeLead, *]

/-- C2 witness: on a store holding `wlead` (id 1), an update input that only
specifies `notes` preserves the prior status, tags and intent score and sets
the notes. -/
theorem updateLead_preserves_absent_fields_witness :
    DB.GetLeadByID wdb 1 = some wlead ∧
    (Resolver.mergeLead wlead wnotesInput 11).status = wlead.status ∧
    (Resolver.mergeLead wlead wnotesInput 11).tags = wlead.tags ∧
    (Resolver.mergeLead wlead wnotesInput 11).intentScore = wlead.intentScore ∧
    (Resolver.mergeLead wlead wnotesInput 11).notes = some "called twice" := by
  have X := updateLead_preserves_absent_fields wdb 1 wnotesInput 11 wlead rfl
  obtain ⟨h1, h2, h3, h4, h5, h6, h7, h8, h9, h10, h11, h12, h13, h14, h15, h16, h17, h18⟩ := X
  exact ⟨rfl, h6 rfl, h8 rfl, h7 rfl, h18 _ rfl⟩

/-- C6: creating a lead and immediately fetching it by the returned id yields
exactly the created entity; the created entity carries the provided input
values (absent optional fields stay absent), the server-assigned id and the
server-set creation timestamp. -/
theorem createLead_then_get_roundtrip (db : LeadsDB) (input : LeadInput)
    (now : Nat) (h : db.WF) :
    DB.GetLeadByID (Resolver.CreateLead db input now).2
        (Resolver.CreateLead db input now).1.id
      = some (Resolver.CreateLead db input now).1 ∧
    (Resolver.CreateLead db input now).1.name = input.name ∧
    (Resolver.CreateLead db input now).1.email = input.email ∧
    (Resolver.CreateLead db input now).1.phone = input.phone ∧
    (Resolver.CreateLead db input now).1.company = input.company ∧
    (Resolver.CreateLead db input now).1.position = input.position ∧
    (Resolver.CreateLead db input now).1.tags = input.tags.getD [] ∧
    (Resolver.CreateLead db input now).1.source = input.source ∧
    (Resolver.CreateLead db input now).1.notes = input.notes ∧
    (Resolver.CreateLead db input now).1.lastContact = none ∧
    (Resolver.CreateLead db input now).1.nextFollowUp = none ∧
    (Resolver.CreateLead db input now).1.updatedAt = none ∧
    (Resolver.CreateLead db input now).1.createdAt = now := by
  refine ⟨?_, rfl, rfl, rfl, rfl, rfl, rfl, rfl, rfl, rfl, rfl, rfl, rfl⟩
  have h1 : db.rows.find? (fun r => r.id == db.nextId) = none := by
    rw [List.find?_eq_none]
    intro r hr
    have := h r hr
    simp only [beq_iff_eq]
    omega
  simp only [Resolver.CreateLead, DB.CreateLead, DB.GetLeadByID]
  rw [List.find?_append, h1]
  simp

/-- C6 witness: concrete round trip over an empty well-formed store. -/
theorem createLead_then_get_roundtrip_witness :
    (LeadsDB.WF { rows := [], nextId := 5 }) ∧
    DB.GetLeadByID (Resolver.CreateLead { rows := [], nextId := 5 } wcreateInput 7).2
        (Resolver.CreateLead { rows := [], nextId := 5 } wcreateInput 7).1.id
      = some (Resolver.CreateLead { rows := [], nextId := 5 } wcreateInput 7).1 :=
  ⟨by decide,
   (createLead_then_get_roundtrip { rows := [], nextId := 5 } wcreateInput 7 (by decide)).1⟩

/-- C8: the list query's predicate is conjunctive over only the present
filter fields: with no filter at all every stored lead is returned, and with
only `minIntentScore = t` present a lead is returned exactly when it is
stored and its intent score is at least `t` (no pagination applied). -/
theorem getLeadsByFilter_conjunctive (db : LeadsDB) (t : Rat) (l : Lead) :
    (l ∈ DB.GetLeadsByFilter db none none none ↔ l ∈ db.rows) ∧
    (l ∈ DB.GetLeadsByFilter db (some (minScoreFilter t)) none none ↔
      l ∈ db.rows ∧ t ≤ l.intentScore) := by
  constructor
  · simp [DB.GetLeadsByFilter, mem_sortByCreatedDesc]
  · simp [DB.GetLeadsByFilter, mem_sortByCreatedDesc, List.mem_filter,
      leadMatches, minScoreFilter]

/-- C9: results are ordered newest-first by creation time and `limit`/
`offset` are applied to that ordering, offset first: over five rows in
creation-descending order, `limit = 2, offset = 2` returns exactly the third
and fourth rows, in order. -/
theorem getLeadsByFilter_pagination (db : LeadsDB) (a b c d e : Lead)
    (h : sortByCreatedDesc db.rows = [a, b, c, d, e]) :
    DB.GetLeadsByFilter db none (some 2) (some 2) = [c, d] := by
  simp [DB.GetLeadsByFilter, h]

/-- C9 witness: five concrete rows stored in creation-descending order. -/
theorem getLeadsByFilter_pagination_witness :
    sortByCreatedDesc pagedDB.rows
      = [pagedLead 5, pagedLead 4, pagedLead 3, pagedLead 2, pagedLead 1] ∧
    DB.GetLeadsByFilter pagedDB none (some 2) (some 2) = [pagedLead 3, pagedLead 2] :=
  ⟨by decide,
   getLeadsByFilter_pagination pagedDB (pagedLead 5) (pagedLead 4) (pagedLead 3)
     (pagedLead 2) (pagedLead 1) (by decide)⟩

/-- C4: for an agent with no prior stats row, `GetAgentStats` returns a
zero-valued row with `period = "all"` scoped to that agent, persists it
immediately (the store gains exactly that row), and a second call returns
that same stored row — same id, counters, period and creation time — while
leaving the store unchanged (no second auto-created row). -/
theorem getAgentStats_autocreates (db : StatsDB) (agentID : String)
    (now now2 : Nat) (h : ∀ r ∈ db.rows, r.agentID ≠ agentID) :
    (DB.GetAgentStats db agentID now).1.agentID = agentID ∧
    (DB.GetAgentStats db agentID now).1.leadsEngaged = 0 ∧
    (DB.GetAgentStats db agentID now).1.messagesDelivered = 0 ∧
    (DB.GetAgentStats db agentID now).1.responseRate = 0 ∧
    (DB.GetAgentStats db agentID now).1.conversionRate = 0 ∧
    (DB.GetAgentStats db agentID now).1.avgResponseTime = 0 ∧
    (DB.GetAgentStats db agentID now).1.period = "all" ∧
    (DB.GetAgentStats db agentID now).1.createdAt = now ∧
    (DB.GetAgentStats db agentID now).2.rows
      = db.rows ++ [{ id := db.nextId, agentID := agentID, leadsEngaged := 0,
                      messagesDelivered := 0, responseRate := 0, conversionRate := 0,
                      avgResponseTime := 0, period := "all", createdAt := now }] ∧
    (DB.GetAgentStats (DB.GetAgentStats db agentID now).2 agentID now2).1.id
      = (DB.GetAgentStats db agentID now).1.id ∧
    (DB.GetAgentStats (DB.GetAgentStats db agentID now).2 agentID now2).1.leadsEngaged = 0 ∧
    (DB.GetAgentStats (DB.GetAgentStats db agentID now).2 agentID now2).1.messagesDelivered = 0 ∧
    (DB.GetAgentStats (DB.GetAgentStats db agentID now).2 agentID now2).1.responseRate = 0 ∧
    (DB.GetAgentStats (DB.GetAgentStats db agentID now).2 agentID now2).1.conversionRate = 0 ∧
    (DB.GetAgentStats (DB.GetAgentStats db agentID now).2 agentID now2).1.avgResponseTime = 0 ∧
    (DB.GetAgentStats (DB.GetAgentStats db agentID now).2 agentID now2).1.period = "all" ∧
    (DB.GetAgentStats (DB.GetAgentStats db agentID now).2 agentID now2).1.createdAt
      = (DB.GetAgentStats db agentID now).1.createdAt ∧
    (DB.GetAgentStats (DB.GetAgentStats db agentID now).2 agentID now2).2
      = (DB.GetAgentStats db agentID now).2 := by
  have h1 : latestStatsFor db.rows agentID = none := latestStatsFor_eq_none _ _ h
  have h2 := latestStatsFor_append_single db.rows agentID
    { id := db.nextId, agentID := agentID, leadsEngaged := 0, messagesDelivered := 0,
      responseRate := 0, conversionRate := 0, avgResponseTime := 0,
      period := "all", createdAt := now } h rfl
  simp only [DB.GetAgentStats, h1, h2]
  simp

/-- C4 witness: an empty stats store, two consecutive calls. -/
theorem getAgentStats_autocreates_witness :
    (∀ r ∈ ({ rows := [], nextId := 0 } : StatsDB).rows, r.agentID ≠ "a1") ∧
    (DB.GetAgentStats ({ rows := [], nextId := 0 } : StatsDB) "a1" 3).1.period = "all" ∧
    (DB.GetAgentStats (DB.GetAgentStats ({ rows := [], nextId := 0 } : StatsDB) "a1" 3).2 "a1" 7).2
      = (DB.GetAgentStats ({ rows := [], nextId := 0 } : StatsDB) "a1" 3).2 := by
  have X := getAgentStats_autocreates { rows := [], nextId := 0 } "a1" 3 7 (by simp)
  obtain ⟨x1, x2, x3, x4, x5, x6, x7, x8, x9, x10, x11, x12, x13, x14, x15, x16, x17, x18⟩ := X
  exact ⟨by simp, x7, x18⟩

/-- C5 witness: creating a client with two service ids where the second
insert fails leaves the client persisted, the association table untouched,
and returns an error. -/
theorem createClient_error_keeps_client_witness :
    wclientInput.serviceIds = some ["s1", "s2"] ∧
    ((["s1", "s2"] : List String).any (fun s => s == "s2") || false) = true ∧
    (∃ e, (Resolver.CreateClient { clients := [], nextId := 0, clientService := [] }
             wclientInput 100 (fun s => s == "s2") false).2 = Except.error e ∧
      (Resolver.CreateClient { clients := [], nextId := 0, clientService := [] }
         wclientInput 100 (fun s => s == "s2") false).1.clients
        = ({ clients := [], nextId := 0, clientService := [] } : ClientDB).clients
            ++ [{ (Resolver.mkClient wclientInput 100) with
                  id := ({ clients := [], nextId := 0, clientService := [] } : ClientDB).nextId }] ∧
      (Resolver.CreateClient { clients := [], nextId := 0, clientService := [] }
         wclientInput 100 (fun s => s == "s2") false).1.clientService
        = ({ clients := [], nextId := 0, clientService := [] } : ClientDB).clientService) :=
  ⟨rfl, by decide,
   createClient_error_keeps_client { clients := [], nextId := 0, clientService := [] }
     wclientInput 100 (fun s => s == "s2") false ["s1", "s2"] rfl (by decide)⟩
